import Mathlib

/-!
Verification development for the `jupyter-delicacies` OCR notebook
(`src/vision/ocr.ipynb`).  The notebook loads an image from local disk or
Google Cloud Storage, optionally binarizes it (Otsu threshold), runs Tesseract
and the Google Vision API on it, reconstructs text from the hierarchical
results and draws bounding shapes on copies of the image.

The embedding below translates the notebook's own code.  Calls into external
libraries (gcsfs, OpenCV, PIL, the Vision client, Tesseract, the cv2 drawing
primitives) are modelled as explicit environment parameters: the notebook only
composes them, so every theorem is stated for an arbitrary environment and the
interesting content is how the notebook routes data between those calls.
Python exceptions are modelled with `Except`; the Python value `None` returned
by `cv2.imread` / `cv2.imdecode` on failure is modelled with `Option`.
NumPy image buffers are mutable, so the overlay renderers are embedded with an
explicit heap of buffers to state their frame properties faithfully.
-/

set_option autoImplicit false

namespace JupyterDelicacies

/-- The `vision.enums.TextAnnotation.DetectedBreak.BreakType`: the kinds of break
the cloud engine can attach to a recognised symbol. -/
inductive BreakType where
  | UNKNOWN
  | SPACE
  | SURE_SPACE
  | EOL_SURE_SPACE
  | HYPHEN
  | LINE_BREAK
  deriving DecidableEq, Repr

/-- The `symbol.property`: an optional detected break.
`HasField('detected_break')` is modelled by `Option.isSome`. -/
structure SymbolProperty where
  detected_break : Option BreakType
  deriving DecidableEq, Repr

/-- A recognised symbol (character) of the cloud engine's hierarchy. -/
structure Symbol where
  text : String
  property : SymbolProperty
  deriving DecidableEq, Repr

/-- A corner point of a bounding polygon (`point.x`, `point.y`). -/
structure Vertex where
  x : Int
  y : Int
  deriving DecidableEq, Repr

/-- The `bounding_box`: a polygon given by its list of vertices. -/
structure BoundingPoly where
  vertices : List Vertex
  deriving DecidableEq, Repr

/-- A word of the cloud engine's hierarchy: its symbols and bounding polygon. -/
structure Word where
  symbols : List Symbol
  bounding_box : BoundingPoly
  deriving DecidableEq, Repr

/-- A paragraph: its words and bounding polygon. -/
structure Paragraph where
  words : List Word
  bounding_box : BoundingPoly
  deriving DecidableEq, Repr

/-- A block: its paragraphs and bounding polygon. -/
structure Block where
  paragraphs : List Paragraph
  bounding_box : BoundingPoly
  deriving DecidableEq, Repr

/-- A page of the cloud engine's hierarchical result: its blocks. -/
structure Page where
  blocks : List Block
  deriving DecidableEq, Repr

/-- The `get_symbol_text(symbol)` from the notebook:
start from `symbol.text`; if the property has a detected break, append `"\n"`
when it equals `LINE_BREAK` and `" "` otherwise; with no detected break the
text is returned unchanged. -/
def get_symbol_text (symbol : Symbol) : String :=
  match symbol.property.detected_break with
  | some b =>
      if b = BreakType.LINE_BREAK then symbol.text ++ "\n" else symbol.text ++ " "
  | none => symbol.text

/-- The `get_word_text(word)`: `"".join([get_symbol_text(x) for x in word.symbols])`. -/
def get_word_text (word : Word) : String :=
  String.join (word.symbols.map (fun x => get_symbol_text x))

/-- The `get_paragraph_text(para)`: `"".join([get_word_text(x) for x in para.words])`. -/
def get_paragraph_text (para : Paragraph) : String :=
  String.join (para.words.map (fun x => get_word_text x))

/-- The `get_block_text(block)`: `"".join([get_paragraph_text(x) for x in block.paragraphs])`. -/
def get_block_text (block : Block) : String :=
  String.join (block.paragraphs.map (fun x => get_paragraph_text x))

/-! ### Image loading (`imread_wrapper`) -/

/-- A decoded color raster image: a buffer of BGR pixels.  `cv2.imread` /
`cv2.imdecode` with `IMREAD_COLOR` always produce 3-channel buffers, which the
triple encodes. -/
abbrev Img := List (Nat × Nat × Nat)

/-- Python exceptions raised by the external libraries used in the notebook. -/
inductive PyError where
  /-- The `FileNotFoundError` raised by `gcsfs` when the object is unreachable. -/
  | fileNotFound (uri : String)
  /-- a remote-call failure of the Vision client (auth, quota, network). -/
  | remoteError (msg : String)
  /-- The `IndexError` raised by `pages[0]` on an empty list. -/
  | indexError
  deriving DecidableEq, Repr

/-- The external calls `imread_wrapper` composes.  Their failure behaviour
follows the libraries' documented contracts: `gcsfs` raises on an unreachable
object, while `cv2.imread` and `cv2.imdecode` return `None` (here `none`)
on an unreachable path or undecodable bytes, without raising. -/
structure ImreadEnv where
  /-- The `gcsfs.GCSFileSystem().open(uri, "rb")` followed by `f.read()`:
  the raw bytes of the object, or a raised error. -/
  gcs_read : String → Except PyError (List Nat)
  /-- The `cv2.imdecode(arr, cv2.IMREAD_COLOR)`: `none` when the bytes are not a
  valid image. -/
  imdecode : List Nat → Option Img
  /-- The `cv2.imread(path, cv2.IMREAD_COLOR)`: `none` when the path is
  unreachable or the file is not a valid image. -/
  imread : String → Option Img

/-- Python's `uri.startswith(pre)`: a case-sensitive character-level
prefix test. -/
def startswith (uri pre : String) : Bool :=
  pre.data.isPrefixOf uri.data

/-- The `imread_wrapper(uri)` from the notebook: when the locator starts with
`"gs://"`, read the raw bytes through the storage client (letting its error
propagate) and decode them with `cv2.imdecode`; otherwise pass the locator to
`cv2.imread` as a plain local path. -/
def imread_wrapper (env : ImreadEnv) (uri : String) : Except PyError (Option Img) :=
  if startswith uri "gs://" then
    match env.gcs_read uri with
    | .error e => .error e
    | .ok bytes => .ok (env.imdecode bytes)
  else
    .ok (env.imread uri)

/-- An environment where every local path is unreachable (`cv2.imread` yields
`None`) and every byte buffer is undecodable; used to evaluate
`imread_wrapper`'s behaviour on failing inputs. -/
def envMissingLocal : ImreadEnv where
  gcs_read := fun u => .error (.fileNotFound u)
  imdecode := fun _ => none
  imread := fun _ => none

/-- A concrete environment with one reachable cloud object and one readable
local file; used to evaluate `imread_wrapper` on concrete locators. -/
def envDemo : ImreadEnv where
  gcs_read := fun u =>
    if u = "gs://bucket/pic.png" then .ok [7, 7] else .error (.fileNotFound u)
  imdecode := fun bs => if bs = [7, 7] then some [(1, 2, 3)] else none
  imread := fun p => if p = "img/receipt.jpg" then some [(4, 5, 6)] else none

/-! ### Optional preprocessing (the `PERFORM_THRESHOLDING` cell) -/

/-- A single-channel (grayscale) image buffer. -/
abbrev GrayImg := List Nat

/-- The `cv2.cvtColor(img, cv2.COLOR_BGR2GRAY)`: per-pixel luma combination of the
B, G, R channels (OpenCV's coefficients 0.114, 0.587, 0.299, rounded). -/
def cvtColor_BGR2GRAY (img : Img) : GrayImg :=
  img.map (fun p => (299 * p.2.2 + 587 * p.2.1 + 114 * p.1 + 500) / 1000)

/-- The `cv2.threshold(gray, 0, 255, cv2.THRESH_BINARY | cv2.THRESH_OTSU)`:
with `THRESH_OTSU` the threshold argument `0` is ignored and a value `t`
computed by the library from the image histogram is used instead;
`THRESH_BINARY` maps every pixel to `maxval` when above `t` and to `0`
otherwise.  The selected `t` is an explicit parameter here because Otsu's
search lives inside OpenCV. -/
def cv2_threshold_binary (t maxval : Nat) (img : GrayImg) : GrayImg :=
  img.map (fun p => if t < p then maxval else 0)

/-- The `cv2.cvtColor(gray, cv2.COLOR_GRAY2BGR)`: replicate the single channel
into the three channels of a color image. -/
def cvtColor_GRAY2BGR (img : GrayImg) : Img :=
  img.map (fun v => (v, v, v))

/-- The two preprocessing lines run when `PERFORM_THRESHOLDING` is `True`:
grayscale conversion, Otsu binary threshold, re-expansion to three channels.
`otsu_select` is OpenCV's Otsu threshold selection. -/
def threshold_preprocess (otsu_select : GrayImg → Nat) (img : Img) : Img :=
  let gray := cvtColor_BGR2GRAY img
  cvtColor_GRAY2BGR (cv2_threshold_binary (otsu_select gray) 255 gray)

/-- The notebook's loading cell: the loaded image, preprocessed exactly when
the `PERFORM_THRESHOLDING` toggle is set. -/
def preprocess_cell (PERFORM_THRESHOLDING : Bool) (otsu_select : GrayImg → Nat)
    (img : Img) : Img :=
  if PERFORM_THRESHOLDING then threshold_preprocess otsu_select img else img

/-! ### Cloud OCR invocation -/

/-- The `image_response.full_text_annotation` (field shortened to `full_text_ann`):
the hierarchical annotation with its list of pages. -/
structure TextAnnot where
  pages : List Page
  deriving DecidableEq, Repr

/-- The response of a Vision annotate call. -/
structure AnnotateResponse where
  full_text_ann : TextAnnot
  deriving DecidableEq, Repr

/-- The `vision.types.Image(content=byte_image)`: an encoded image byte buffer. -/
structure VisionImage where
  content : List Nat
  deriving DecidableEq, Repr

/-- The `image_context={"language_hints": [...]}`. -/
structure ImageContext where
  language_hints : List String
  deriving DecidableEq, Repr

/-- The external calls the Google Vision cells compose. -/
structure VisionEnv where
  /-- The `Image.fromarray(img)`, `img_pil.save(buf, 'PNG')`, `buf.getvalue()`:
  PNG serialization of the raster image. -/
  png_encode : Img → List Nat
  /-- The `google_image_annotator.document_text_detection(...)`: the remote
  dense-document endpoint; may raise (auth, quota, network). -/
  document_text_detection : VisionImage → ImageContext → Except PyError AnnotateResponse
  /-- The `google_image_annotator.text_detection(...)`: the remote general-text
  endpoint; may raise. -/
  text_detection : VisionImage → ImageContext → Except PyError AnnotateResponse

/-- The `google_document_text_detection(img)` from the notebook: serialize the
image to PNG bytes, submit them to the dense-document endpoint with language
hint `["en"]`, and return `image_response.full_text_annotation.pages[0]`
(Python raises `IndexError` when there is no page). -/
def google_document_text_detection (env : VisionEnv) (img : Img) :
    Except PyError Page :=
  let byte_image := env.png_encode img
  let document_image : VisionImage := ⟨byte_image⟩
  match env.document_text_detection document_image ⟨["en"]⟩ with
  | .error e => .error e
  | .ok image_response =>
      match image_response.full_text_ann.pages with
      | [] => .error .indexError
      | page :: _ => .ok page

/-- The `google_text_detection(img)` from the notebook: identical to
`google_document_text_detection` but against the general-text endpoint. -/
def google_text_detection (env : VisionEnv) (img : Img) : Except PyError Page :=
  let byte_image := env.png_encode img
  let document_image : VisionImage := ⟨byte_image⟩
  match env.text_detection document_image ⟨["en"]⟩ with
  | .error e => .error e
  | .ok image_response =>
      match image_response.full_text_ann.pages with
      | [] => .error .indexError
      | page :: _ => .ok page

/-- A one-symbol demo page used to evaluate the theorems concretely. -/
def pageDemo : Page :=
  ⟨[⟨[⟨[⟨[⟨"hi", ⟨none⟩⟩], ⟨[⟨0, 0⟩, ⟨5, 0⟩, ⟨5, 9⟩, ⟨0, 9⟩]⟩⟩],
        ⟨[⟨0, 0⟩, ⟨5, 0⟩, ⟨5, 9⟩, ⟨0, 9⟩]⟩⟩],
      ⟨[⟨0, 0⟩, ⟨5, 0⟩, ⟨5, 9⟩, ⟨0, 9⟩]⟩⟩]⟩

/-- A Vision environment whose endpoints answer with the one-page demo
response. -/
def visionEnvDemo : VisionEnv where
  png_encode := fun img => [img.length]
  document_text_detection := fun _ _ => .ok ⟨⟨[pageDemo]⟩⟩
  text_detection := fun _ _ => .ok ⟨⟨[pageDemo]⟩⟩

/-- A Vision environment whose endpoints fail, as on bad credentials. -/
def visionEnvDown : VisionEnv where
  png_encode := fun img => [img.length]
  document_text_detection := fun _ _ => .error (.remoteError "quota")
  text_detection := fun _ _ => .error (.remoteError "auth")

/-! ### Overlay renderers over a heap of mutable image buffers -/

/-- The mutable NumPy buffers alive in the notebook, addressed by allocation
order: `img.copy()` allocates, the cv2 drawing calls write in place. -/
structure Heap where
  bufs : List Img
  deriving DecidableEq, Repr

/-- Read the buffer behind a reference. -/
def Heap.read (h : Heap) (r : Nat) : Img :=
  h.bufs.getD r []

/-- Overwrite the buffer behind a reference in place. -/
def Heap.write (h : Heap) (r : Nat) (i : Img) : Heap :=
  ⟨h.bufs.set r i⟩

/-- The `img.copy()`: allocate a fresh buffer holding the same pixels; the updated
heap and the new reference. -/
def Heap.copy (h : Heap) (r : Nat) : Heap × Nat :=
  (⟨h.bufs ++ [h.read r]⟩, h.bufs.length)

/-- The `add_bounding_box(img, bb)` from the notebook: draw the closed polygon
through `bb`'s vertices onto the buffer behind `r`, in place.  `draw` is
`cv2.polylines`' rasterization. -/
def add_bounding_box (draw : Img → List Vertex → Img) (h : Heap) (r : Nat)
    (bb : List Vertex) : Heap :=
  h.write r (draw (h.read r) bb)

/-- The body of `get_google_words`' innermost loop: append the word's text to
the collected texts and draw its bounding polygon on the copied buffer. -/
def words_step (draw : Img → List Vertex → Img) (copyRef : Nat)
    (acc : List String × Heap) (word : Word) : List String × Heap :=
  (acc.1 ++ [get_word_text word],
   add_bounding_box draw acc.2 copyRef word.bounding_box.vertices)

/-- The `for word in para.words:` of `get_google_words`. -/
def words_para_loop (draw : Img → List Vertex → Img) (copyRef : Nat)
    (acc : List String × Heap) (para : Paragraph) : List String × Heap :=
  para.words.foldl (words_step draw copyRef) acc

/-- The `for para in block.paragraphs:` of `get_google_words`. -/
def words_block_loop (draw : Img → List Vertex → Img) (copyRef : Nat)
    (acc : List String × Heap) (block : Block) : List String × Heap :=
  block.paragraphs.foldl (words_para_loop draw copyRef) acc

/-- The `get_google_words(page, img)`: copy the image, then for every word of
every paragraph of every block collect `get_word_text` and draw the word's
bounding polygon on the copy; returns the texts, a reference to the annotated
copy, and the heap after the call. -/
def get_google_words (draw : Img → List Vertex → Img) (page : Page) (h : Heap)
    (imgRef : Nat) : (List String × Nat) × Heap :=
  let (h1, copyRef) := h.copy imgRef
  let r := page.blocks.foldl (words_block_loop draw copyRef) ([], h1)
  ((r.1, copyRef), r.2)

/-- The body of `get_google_paragraphs`' inner loop. -/
def paras_step (draw : Img → List Vertex → Img) (copyRef : Nat)
    (acc : List String × Heap) (para : Paragraph) : List String × Heap :=
  (acc.1 ++ [get_paragraph_text para],
   add_bounding_box draw acc.2 copyRef para.bounding_box.vertices)

/-- The `for para in block.paragraphs:` of `get_google_paragraphs`. -/
def paras_block_loop (draw : Img → List Vertex → Img) (copyRef : Nat)
    (acc : List String × Heap) (block : Block) : List String × Heap :=
  block.paragraphs.foldl (paras_step draw copyRef) acc

/-- The `get_google_paragraphs(page, img)`: as `get_google_words`, one text and
one polygon per paragraph. -/
def get_google_paragraphs (draw : Img → List Vertex → Img) (page : Page)
    (h : Heap) (imgRef : Nat) : (List String × Nat) × Heap :=
  let (h1, copyRef) := h.copy imgRef
  let r := page.blocks.foldl (paras_block_loop draw copyRef) ([], h1)
  ((r.1, copyRef), r.2)

/-- The body of `get_google_blocks`' loop. -/
def blocks_step (draw : Img → List Vertex → Img) (copyRef : Nat)
    (acc : List String × Heap) (block : Block) : List String × Heap :=
  (acc.1 ++ [get_block_text block],
   add_bounding_box draw acc.2 copyRef block.bounding_box.vertices)

/-- The `get_google_blocks(page, img)`: as `get_google_words`, one text and one
polygon per block. -/
def get_google_blocks (draw : Img → List Vertex → Img) (page : Page) (h : Heap)
    (imgRef : Nat) : (List String × Nat) × Heap :=
  let (h1, copyRef) := h.copy imgRef
  let r := page.blocks.foldl (blocks_step draw copyRef) ([], h1)
  ((r.1, copyRef), r.2)

/-- A Tesseract bounding rectangle `(x1, y1, x2, y2)` as `r.BoundingBox`
returns it. -/
abbrev TessBox := Int × Int × Int × Int

/-- One Tesseract engine configuration as the overlay loop consumes it:
`tesseract_ocr` followed by `iterate_level` yields, for an input image, the
result nodes at the displayed level, each with its `GetUTF8Text` and its
`BoundingBox`. -/
abbrev TessMode := Img → List (String × TessBox)

/-- The body of `display_tesseract_results`' inner loop: append the node's
text to `tokens` and draw its bounding rectangle on the copied buffer with
`cv2.rectangle` (rasterization `draw_rect`). -/
def tess_step (draw_rect : Img → TessBox → Img) (copyRef : Nat)
    (acc : List String × Heap) (node : String × TessBox) : List String × Heap :=
  (acc.1 ++ [node.1],
   acc.2.write copyRef (draw_rect (acc.2.read copyRef) node.2))

/-- One iteration of `display_tesseract_results`' outer loop: run this mode's
recognition on the input image, copy the image, draw every node's rectangle on
the copy and record the tokens together with the annotated copy. -/
def tess_mode_step (draw_rect : Img → TessBox → Img) (imgRef : Nat)
    (acc : List (List String × Nat) × Heap) (mode : TessMode) :
    List (List String × Nat) × Heap :=
  let results := mode (acc.2.read imgRef)
  let (h1, copyRef) := acc.2.copy imgRef
  let r := results.foldl (tess_step draw_rect copyRef) ([], h1)
  (acc.1 ++ [(r.1, copyRef)], r.2)

/-- The `display_tesseract_results(img, level)`: for every configured Tesseract
mode in turn, recognize the input image, copy it, overlay every node's
rectangle on the copy and collect the tokens. -/
def display_tesseract_results (draw_rect : Img → TessBox → Img)
    (modes : List TessMode) (h : Heap) (imgRef : Nat) :
    List (List String × Nat) × Heap :=
  modes.foldl (tess_mode_step draw_rect imgRef) ([], h)

/-- A one-buffer heap used to evaluate the overlay theorems concretely. -/
def heapDemo : Heap := ⟨[[(0, 0, 0)]]⟩

/-- A concrete polygon rasterizer used in witnesses: prepend a red pixel. -/
def drawPolyDemo : Img → List Vertex → Img := fun i _ => (255, 0, 0) :: i

/-- A concrete rectangle rasterizer used in witnesses: prepend a red pixel. -/
def drawRectDemo : Img → TessBox → Img := fun i _ => (255, 0, 0) :: i

/-- A concrete single-configuration Tesseract setup used in witnesses. -/
def tessModesDemo : List TessMode := [fun _ => [("word", (0, 0, 1, 1))]]

/-- The invariant maintained by `display_tesseract_results`' outer loop over
initial heap `h0` and input reference `imgRef`: the input buffer is untouched
and still allocated, and every recorded annotated reference differs from the
input reference and is allocated, the references being recorded in strictly
increasing order. -/
def TessInv (imgRef : Nat) (h0 : Heap) (acc : List (List String × Nat) × Heap) : Prop :=
  acc.2.bufs[imgRef]? = h0.bufs[imgRef]? ∧
  imgRef < acc.2.bufs.length ∧
  (∀ e ∈ acc.1, e.2 ≠ imgRef ∧ e.2 < acc.2.bufs.length) ∧
  (acc.1.map (fun e => e.2)).Pairwise (fun a b => a < b)

/-! ### Helper lemmas -/

/-- Python's `"".join` concatenates the strings of the list in order:
`String.join` agrees with the right fold of `++` over the list. -/
theorem string_foldl_append (l : List String) (s : String) :
    l.foldl (fun r t => r ++ t) s = s ++ l.foldr (fun a b => a ++ b) "" := by
  induction l generalizing s with
  | nil => simp [String.append_empty]
  | cons a l ih =>
      simp only [List.foldl_cons, List.foldr_cons, ih, String.append_assoc]

theorem string_join_eq_foldr (l : List String) :
    String.join l = l.foldr (fun a b => a ++ b) "" := by
  show l.foldl (fun r t => r ++ t) "" = _
  rw [string_foldl_append, String.empty_append]

/-! ### C1: suffix appended by `get_symbol_text` -/

/-- C1: the reconstructed text of a symbol is the symbol's own text followed by
exactly one suffix determined by its detected-break flag: a newline when the
flag is `LINE_BREAK`, a single space when the flag is `SPACE`, and nothing when
no break flag is set. -/
theorem get_symbol_text_break_cases (s : Symbol) :
    (s.property.detected_break = some BreakType.LINE_BREAK →
      get_symbol_text s = s.text ++ "\n") ∧
    (s.property.detected_break = some BreakType.SPACE →
      get_symbol_text s = s.text ++ " ") ∧
    (s.property.detected_break = none →
      get_symbol_text s = s.text) := by
  refine ⟨fun h => ?_, fun h => ?_, fun h => ?_⟩ <;>
    simp [get_symbol_text, h]

theorem get_symbol_text_break_cases_witness :
    get_symbol_text ⟨"a", ⟨some BreakType.LINE_BREAK⟩⟩ = "a" ++ "\n" ∧
    get_symbol_text ⟨"b", ⟨some BreakType.SPACE⟩⟩ = "b" ++ " " ∧
    get_symbol_text ⟨"c", ⟨none⟩⟩ = "c" :=
  ⟨(get_symbol_text_break_cases ⟨"a", ⟨some BreakType.LINE_BREAK⟩⟩).1 rfl,
   (get_symbol_text_break_cases ⟨"b", ⟨some BreakType.SPACE⟩⟩).2.1 rfl,
   (get_symbol_text_break_cases ⟨"c", ⟨none⟩⟩).2.2 rfl⟩

/-! ### C2: bottom-up text assembly -/

/-- C2: the reconstructed text of a parent node is the concatenation, in
original child order, of the reconstructed texts of its children, at each of
the three levels block/paragraph/word. -/
theorem reconstructed_text_concat (b : Block) (p : Paragraph) (w : Word) :
    get_block_text b =
      (b.paragraphs.map (fun x => get_paragraph_text x)).foldr (fun a t => a ++ t) "" ∧
    get_paragraph_text p =
      (p.words.map (fun x => get_word_text x)).foldr (fun a t => a ++ t) "" ∧
    get_word_text w =
      (w.symbols.map (fun x => get_symbol_text x)).foldr (fun a t => a ++ t) "" :=
  ⟨string_join_eq_foldr _, string_join_eq_foldr _, string_join_eq_foldr _⟩

/-! ### C3: `imread_wrapper` routing -/

/-- C3: for a locator denoting cloud object storage, `imread_wrapper` fetches
the raw bytes through the storage client and returns their decoding; for any
other locator it returns the decoding of the local filesystem path. -/
theorem imread_wrapper_contract (env : ImreadEnv) (uri : String) :
    (∀ bytes img, startswith uri "gs://" = true → env.gcs_read uri = .ok bytes →
      env.imdecode bytes = some img → imread_wrapper env uri = .ok (some img)) ∧
    (startswith uri "gs://" = false →
      imread_wrapper env uri = .ok (env.imread uri)) := by
  constructor
  · intro bytes img hgs hread hdec
    simp [imread_wrapper, hgs, hread, hdec]
  · intro hgs
    simp [imread_wrapper, hgs]

theorem imread_wrapper_contract_witness :
    imread_wrapper envDemo "gs://bucket/pic.png" = .ok (some [(1, 2, 3)]) ∧
    imread_wrapper envDemo "img/receipt.jpg" = .ok (envDemo.imread "img/receipt.jpg") :=
  ⟨(imread_wrapper_contract envDemo "gs://bucket/pic.png").1 [7, 7] [(1, 2, 3)]
      (by decide) rfl rfl,
   (imread_wrapper_contract envDemo "img/receipt.jpg").2 (by decide)⟩

/-! ### C4: failure behaviour of `imread_wrapper` -/

/-- C4 counterexample: a local locator whose path is unreachable does NOT make
`imread_wrapper` signal an error: the call returns the value `None`
(`cv2.imread`'s failure result) as an ordinary return value. -/
theorem imread_wrapper_no_error_counterexample :
    imread_wrapper envMissingLocal "missing.png" = .ok none ∧
    (imread_wrapper envMissingLocal "missing.png").isOk = true :=
  ⟨rfl, rfl⟩

/-- C4 amended: only the cloud branch signals an error, namely the storage
client's Not-Found error when the object is unreachable; an unreachable local
path, and undecodable cloud bytes, instead make `imread_wrapper` return the
decoder's `None` result without signalling any error. -/
theorem imread_wrapper_failure_modes (env : ImreadEnv) (uri : String) :
    (∀ e, startswith uri "gs://" = true → env.gcs_read uri = .error e →
      imread_wrapper env uri = .error e) ∧
    (∀ bytes, startswith uri "gs://" = true → env.gcs_read uri = .ok bytes →
      env.imdecode bytes = none → imread_wrapper env uri = .ok none) ∧
    (startswith uri "gs://" = false → env.imread uri = none →
      imread_wrapper env uri = .ok none) := by
  refine ⟨fun e hgs hread => ?_, fun bytes hgs hread hdec => ?_, fun hgs hread => ?_⟩
  · simp [imread_wrapper, hgs, hread]
  · simp [imread_wrapper, hgs, hread, hdec]
  · simp [imread_wrapper, hgs, hread]

theorem imread_wrapper_failure_modes_witness :
    imread_wrapper envMissingLocal "gs://bucket/gone.png" =
      .error (.fileNotFound "gs://bucket/gone.png") ∧
    imread_wrapper envMissingLocal "missing2.png" = .ok none :=
  ⟨(imread_wrapper_failure_modes envMissingLocal "gs://bucket/gone.png").1
      (.fileNotFound "gs://bucket/gone.png") (by decide) rfl,
   (imread_wrapper_failure_modes envMissingLocal "missing2.png").2.2
      (by decide) rfl⟩

/-! ### C9: the cloud branch is taken exactly on the lowercase `gs://` scheme -/

/-- C9: `imread_wrapper` takes the object-storage branch exactly when the
locator starts with the lowercase prefix `"gs://"`; every other locator —
in particular one with a differently cased scheme — is passed unchanged to
`cv2.imread` as a plain local path. -/
theorem imread_wrapper_gs_scheme (env : ImreadEnv) (uri : String) :
    (startswith uri "gs://" = true →
      imread_wrapper env uri =
        (match env.gcs_read uri with
         | .error e => .error e
         | .ok bytes => .ok (env.imdecode bytes))) ∧
    (startswith uri "gs://" = false →
      imread_wrapper env uri = .ok (env.imread uri)) := by
  constructor <;> intro hgs <;> simp [imread_wrapper, hgs]

theorem imread_wrapper_gs_scheme_witness :
    startswith "GS://bucket/pic.png" "gs://" = false ∧
    imread_wrapper envDemo "GS://bucket/pic.png" =
      .ok (envDemo.imread "GS://bucket/pic.png") ∧
    imread_wrapper envDemo "gs://bucket/pic.png" =
      (match envDemo.gcs_read "gs://bucket/pic.png" with
       | .error e => .error e
       | .ok bytes => .ok (envDemo.imdecode bytes)) :=
  ⟨by decide,
   (imread_wrapper_gs_scheme envDemo "GS://bucket/pic.png").2 (by decide),
   (imread_wrapper_gs_scheme envDemo "gs://bucket/pic.png").1 (by decide)⟩

/-! ### C5: thresholding binarizes and restores the channel count -/

/-- C5: with the preprocessing toggle enabled the image is converted to
grayscale and binarized by the library-selected Otsu threshold, so every pixel
of the single-channel intermediate is `0` or `255`, and the result is
re-expanded to three channels (every output pixel replicates one binarized
value); with the toggle off the image passes through unchanged, so downstream
consumers see 3-channel data either way. -/
theorem thresholding_binarizes_and_restores_channels
    (otsu_select : GrayImg → Nat) (img : Img) :
    (∀ v ∈ cv2_threshold_binary (otsu_select (cvtColor_BGR2GRAY img)) 255
        (cvtColor_BGR2GRAY img), v = 0 ∨ v = 255) ∧
    preprocess_cell true otsu_select img =
      cvtColor_GRAY2BGR (cv2_threshold_binary (otsu_select (cvtColor_BGR2GRAY img)) 255
        (cvtColor_BGR2GRAY img)) ∧
    (∀ p ∈ preprocess_cell true otsu_select img,
      ∃ v, p = (v, v, v) ∧ (v = 0 ∨ v = 255)) ∧
    preprocess_cell false otsu_select img = img := by
  have hbin : ∀ v ∈ cv2_threshold_binary (otsu_select (cvtColor_BGR2GRAY img)) 255
      (cvtColor_BGR2GRAY img), v = 0 ∨ v = 255 := by
    intro v hv
    rw [cv2_threshold_binary, List.mem_map] at hv
    obtain ⟨p, -, rfl⟩ := hv
    by_cases hp : otsu_select (cvtColor_BGR2GRAY img) < p
    · simp [hp]
    · simp [hp]
  refine ⟨hbin, rfl, ?_, rfl⟩
  intro p hp
  simp only [preprocess_cell, if_true, threshold_preprocess, cvtColor_GRAY2BGR,
    List.mem_map] at hp
  obtain ⟨v, hv, rfl⟩ := hp
  exact ⟨v, rfl, hbin v hv⟩

theorem thresholding_witness :
    ((255 : Nat) = 0 ∨ (255 : Nat) = 255) ∧
    preprocess_cell false (fun _ => 100) [(10, 200, 30)] = [(10, 200, 30)] :=
  ⟨(thresholding_binarizes_and_restores_channels (fun _ => 100) [(10, 200, 30)]).1
      255 (by decide),
   (thresholding_binarizes_and_restores_channels (fun _ => 100) [(10, 200, 30)]).2.2.2⟩

/-! ### C7: cloud detection submits PNG bytes and keeps the first page -/

/-- C7: each cloud OCR invocation function serializes the raster image to an
encoded byte buffer, submits it to its own remote endpoint together with the
language hint `["en"]`, and returns the first page of the response's
hierarchical annotation. -/
theorem google_detection_first_page (env : VisionEnv) (img : Img) :
    (∀ resp page rest,
      env.text_detection ⟨env.png_encode img⟩ ⟨["en"]⟩ = .ok resp →
      resp.full_text_ann.pages = page :: rest →
      google_text_detection env img = .ok page) ∧
    (∀ resp page rest,
      env.document_text_detection ⟨env.png_encode img⟩ ⟨["en"]⟩ = .ok resp →
      resp.full_text_ann.pages = page :: rest →
      google_document_text_detection env img = .ok page) := by
  constructor <;>
    · intro resp page rest hok hpages
      simp [google_text_detection, google_document_text_detection, hok, hpages]

theorem google_detection_first_page_witness :
    google_text_detection visionEnvDemo [(0, 0, 0)] = .ok pageDemo ∧
    google_document_text_detection visionEnvDemo [(0, 0, 0)] = .ok pageDemo :=
  ⟨(google_detection_first_page visionEnvDemo [(0, 0, 0)]).1
      ⟨⟨[pageDemo]⟩⟩ pageDemo [] rfl rfl,
   (google_detection_first_page visionEnvDemo [(0, 0, 0)]).2
      ⟨⟨[pageDemo]⟩⟩ pageDemo [] rfl rfl⟩

/-! ### C8: failures propagate unmodified; no retry, no fallback -/

/-- C8: a failure raised by an underlying library call propagates unmodified
to the caller: each cloud invocation function forwards its endpoint's error
verbatim, and `imread_wrapper` forwards the storage client's error verbatim.
Moreover there is no fallback between engines: each invocation function's
result depends only on its own endpoint (and the serializer), not on the
other endpoint. -/
theorem errors_propagate_unmodified (env : VisionEnv) (ienv : ImreadEnv)
    (img : Img) (uri : String) (e : PyError) :
    (env.text_detection ⟨env.png_encode img⟩ ⟨["en"]⟩ = .error e →
      google_text_detection env img = .error e) ∧
    (env.document_text_detection ⟨env.png_encode img⟩ ⟨["en"]⟩ = .error e →
      google_document_text_detection env img = .error e) ∧
    (startswith uri "gs://" = true → ienv.gcs_read uri = .error e →
      imread_wrapper ienv uri = .error e) ∧
    (∀ env2 : VisionEnv, env2.png_encode = env.png_encode →
      env2.text_detection = env.text_detection →
      google_text_detection env2 img = google_text_detection env img) ∧
    (∀ env2 : VisionEnv, env2.png_encode = env.png_encode →
      env2.document_text_detection = env.document_text_detection →
      google_document_text_detection env2 img = google_document_text_detection env img) := by
  refine ⟨fun hok => ?_, fun hok => ?_, fun hgs hread => ?_,
    fun env2 h1 h2 => ?_, fun env2 h1 h2 => ?_⟩
  · simp [google_text_detection, hok]
  · simp [google_document_text_detection, hok]
  · simp [imread_wrapper, hgs, hread]
  · simp [google_text_detection, h1, h2]
  · simp [google_document_text_detection, h1, h2]

theorem errors_propagate_unmodified_witness :
    google_text_detection visionEnvDown [(0, 0, 0)] = .error (.remoteError "auth") ∧
    google_document_text_detection visionEnvDown [(0, 0, 0)] =
      .error (.remoteError "quota") ∧
    imread_wrapper envMissingLocal "gs://b/x" = .error (.fileNotFound "gs://b/x") :=
  ⟨(errors_propagate_unmodified visionEnvDown envMissingLocal [(0, 0, 0)] "gs://b/x"
      (.remoteError "auth")).1 rfl,
   (errors_propagate_unmodified visionEnvDown envMissingLocal [(0, 0, 0)] "gs://b/x"
      (.remoteError "quota")).2.1 rfl,
   (errors_propagate_unmodified visionEnvDown envMissingLocal [(0, 0, 0)] "gs://b/x"
      (.fileNotFound "gs://b/x")).2.2.1 (by decide) rfl⟩

/-! ### Fold lemmas for the overlay loops -/

/-- A left fold preserves any invariant its step preserves. -/
theorem foldl_invariant {α β : Type} (P : β → Prop) (f : β → α → β)
    (l : List α) (b : β) (hb : P b) (hf : ∀ x a, P x → P (f x a)) :
    P (l.foldl f b) := by
  induction l generalizing b with
  | nil => exact hb
  | cons a l ih => exact ih (f b a) (hf b a hb)

/-- A left fold whose step leaves buffer `j` and the heap size unchanged
leaves both unchanged. -/
theorem foldl_heap_frame {α : Type} (step : List String × Heap → α → List String × Heap)
    (j : Nat)
    (hstep : ∀ acc a, (step acc a).2.bufs[j]? = acc.2.bufs[j]? ∧
      (step acc a).2.bufs.length = acc.2.bufs.length)
    (l : List α) (acc : List String × Heap) :
    (l.foldl step acc).2.bufs[j]? = acc.2.bufs[j]? ∧
    (l.foldl step acc).2.bufs.length = acc.2.bufs.length := by
  induction l generalizing acc with
  | nil => exact ⟨rfl, rfl⟩
  | cons a l ih =>
      rw [List.foldl_cons]
      exact ⟨((ih (step acc a)).1).trans (hstep acc a).1,
        ((ih (step acc a)).2).trans (hstep acc a).2⟩

/-- A left fold whose step appends `g a` to the collected texts collects
exactly the concatenation of the `g a` in order. -/
theorem foldl_texts_append {α : Type} (step : List String × Heap → α → List String × Heap)
    (g : α → List String)
    (hstep : ∀ acc a, (step acc a).1 = acc.1 ++ g a)
    (l : List α) (acc : List String × Heap) :
    (l.foldl step acc).1 = acc.1 ++ l.flatMap g := by
  induction l generalizing acc with
  | nil => simp
  | cons a l ih =>
      rw [List.foldl_cons, List.flatMap_cons, ih, hstep, List.append_assoc]

theorem flatMap_singleton_map {α β : Type} (f : α → β) (l : List α) :
    (l.flatMap fun a => [f a]) = l.map f := by
  induction l with
  | nil => rfl
  | cons a l ih => simp [List.flatMap_cons, ih]

/-! ### Frame lemmas for the overlay renderers -/

theorem words_step_frame (draw : Img → List Vertex → Img) (copyRef j : Nat)
    (hne : copyRef ≠ j) (acc : List String × Heap) (w : Word) :
    (words_step draw copyRef acc w).2.bufs[j]? = acc.2.bufs[j]? ∧
    (words_step draw copyRef acc w).2.bufs.length = acc.2.bufs.length := by
  simp [words_step, add_bounding_box, Heap.write, List.getElem?_set_ne hne,
    List.length_set]

theorem words_para_loop_frame (draw : Img → List Vertex → Img) (copyRef j : Nat)
    (hne : copyRef ≠ j) (acc : List String × Heap) (p : Paragraph) :
    (words_para_loop draw copyRef acc p).2.bufs[j]? = acc.2.bufs[j]? ∧
    (words_para_loop draw copyRef acc p).2.bufs.length = acc.2.bufs.length :=
  foldl_heap_frame (words_step draw copyRef) j
    (fun acc w => words_step_frame draw copyRef j hne acc w) p.words acc

theorem words_block_loop_frame (draw : Img → List Vertex → Img) (copyRef j : Nat)
    (hne : copyRef ≠ j) (acc : List String × Heap) (b : Block) :
    (words_block_loop draw copyRef acc b).2.bufs[j]? = acc.2.bufs[j]? ∧
    (words_block_loop draw copyRef acc b).2.bufs.length = acc.2.bufs.length :=
  foldl_heap_frame (words_para_loop draw copyRef) j
    (fun acc p => words_para_loop_frame draw copyRef j hne acc p) b.paragraphs acc

theorem get_google_words_frame (draw : Img → List Vertex → Img) (page : Page)
    (h : Heap) (imgRef : Nat) (hlt : imgRef < h.bufs.length) :
    (get_google_words draw page h imgRef).2.bufs[imgRef]? = h.bufs[imgRef]? ∧
    (get_google_words draw page h imgRef).1.2 ≠ imgRef := by
  have hne : h.bufs.length ≠ imgRef := Nat.ne_of_gt hlt
  have hframe := foldl_heap_frame (words_block_loop draw h.bufs.length) imgRef
    (fun acc b => words_block_loop_frame draw h.bufs.length imgRef hne acc b)
    page.blocks ([], ⟨h.bufs ++ [h.read imgRef]⟩)
  exact ⟨hframe.1.trans (List.getElem?_append_left hlt), hne⟩

theorem paras_step_frame (draw : Img → List Vertex → Img) (copyRef j : Nat)
    (hne : copyRef ≠ j) (acc : List String × Heap) (p : Paragraph) :
    (paras_step draw copyRef acc p).2.bufs[j]? = acc.2.bufs[j]? ∧
    (paras_step draw copyRef acc p).2.bufs.length = acc.2.bufs.length := by
  simp [paras_step, add_bounding_box, Heap.write, List.getElem?_set_ne hne,
    List.length_set]

theorem paras_block_loop_frame (draw : Img → List Vertex → Img) (copyRef j : Nat)
    (hne : copyRef ≠ j) (acc : List String × Heap) (b : Block) :
    (paras_block_loop draw copyRef acc b).2.bufs[j]? = acc.2.bufs[j]? ∧
    (paras_block_loop draw copyRef acc b).2.bufs.length = acc.2.bufs.length :=
  foldl_heap_frame (paras_step draw copyRef) j
    (fun acc p => paras_step_frame draw copyRef j hne acc p) b.paragraphs acc

theorem get_google_paragraphs_frame (draw : Img → List Vertex → Img) (page : Page)
    (h : Heap) (imgRef : Nat) (hlt : imgRef < h.bufs.length) :
    (get_google_paragraphs draw page h imgRef).2.bufs[imgRef]? = h.bufs[imgRef]? ∧
    (get_google_paragraphs draw page h imgRef).1.2 ≠ imgRef := by
  have hne : h.bufs.length ≠ imgRef := Nat.ne_of_gt hlt
  have hframe := foldl_heap_frame (paras_block_loop draw h.bufs.length) imgRef
    (fun acc b => paras_block_loop_frame draw h.bufs.length imgRef hne acc b)
    page.blocks ([], ⟨h.bufs ++ [h.read imgRef]⟩)
  exact ⟨hframe.1.trans (List.getElem?_append_left hlt), hne⟩

theorem blocks_step_frame (draw : Img → List Vertex → Img) (copyRef j : Nat)
    (hne : copyRef ≠ j) (acc : List String × Heap) (b : Block) :
    (blocks_step draw copyRef acc b).2.bufs[j]? = acc.2.bufs[j]? ∧
    (blocks_step draw copyRef acc b).2.bufs.length = acc.2.bufs.length := by
  simp [blocks_step, add_bounding_box, Heap.write, List.getElem?_set_ne hne,
    List.length_set]

theorem get_google_blocks_frame (draw : Img → List Vertex → Img) (page : Page)
    (h : Heap) (imgRef : Nat) (hlt : imgRef < h.bufs.length) :
    (get_google_blocks draw page h imgRef).2.bufs[imgRef]? = h.bufs[imgRef]? ∧
    (get_google_blocks draw page h imgRef).1.2 ≠ imgRef := by
  have hne : h.bufs.length ≠ imgRef := Nat.ne_of_gt hlt
  have hframe := foldl_heap_frame (blocks_step draw h.bufs.length) imgRef
    (fun acc b => blocks_step_frame draw h.bufs.length imgRef hne acc b)
    page.blocks ([], ⟨h.bufs ++ [h.read imgRef]⟩)
  exact ⟨hframe.1.trans (List.getElem?_append_left hlt), hne⟩

theorem tess_step_frame (draw_rect : Img → TessBox → Img) (copyRef j : Nat)
    (hne : copyRef ≠ j) (acc : List String × Heap) (node : String × TessBox) :
    (tess_step draw_rect copyRef acc node).2.bufs[j]? = acc.2.bufs[j]? ∧
    (tess_step draw_rect copyRef acc node).2.bufs.length = acc.2.bufs.length := by
  simp [tess_step, Heap.write, List.getElem?_set_ne hne, List.length_set]

/-- The explicit shape of one outer-loop iteration of
`display_tesseract_results`. -/
theorem tess_mode_step_eq (draw_rect : Img → TessBox → Img) (imgRef : Nat)
    (acc : List (List String × Nat) × Heap) (mode : TessMode) :
    tess_mode_step draw_rect imgRef acc mode =
      (acc.1 ++ [(((mode (acc.2.read imgRef)).foldl
          (tess_step draw_rect acc.2.bufs.length)
          ([], ⟨acc.2.bufs ++ [acc.2.read imgRef]⟩)).1, acc.2.bufs.length)],
       ((mode (acc.2.read imgRef)).foldl
          (tess_step draw_rect acc.2.bufs.length)
          ([], ⟨acc.2.bufs ++ [acc.2.read imgRef]⟩)).2) := rfl

theorem tess_mode_step_inv (draw_rect : Img → TessBox → Img) (imgRef : Nat)
    (h0 : Heap) (acc : List (List String × Nat) × Heap) (mode : TessMode)
    (hinv : TessInv imgRef h0 acc) :
    TessInv imgRef h0 (tess_mode_step draw_rect imgRef acc mode) := by
  obtain ⟨hget, hlt, hmem, hpair⟩ := hinv
  have hne : acc.2.bufs.length ≠ imgRef := Nat.ne_of_gt hlt
  have hinner := foldl_heap_frame (tess_step draw_rect acc.2.bufs.length) imgRef
    (fun a n => tess_step_frame draw_rect acc.2.bufs.length imgRef hne a n)
    (mode (acc.2.read imgRef)) ([], ⟨acc.2.bufs ++ [acc.2.read imgRef]⟩)
  simp only [TessInv, tess_mode_step_eq]
  refine ⟨?_, ?_, ?_, ?_⟩
  · exact hinner.1.trans ((List.getElem?_append_left hlt).trans hget)
  · rw [hinner.2]
    show imgRef < (acc.2.bufs ++ [acc.2.read imgRef]).length
    simp only [List.length_append, List.length_cons, List.length_nil]
    omega
  · intro e he
    rcases List.mem_append.mp he with h1 | h1
    · obtain ⟨hn, hl⟩ := hmem e h1
      refine ⟨hn, ?_⟩
      rw [hinner.2]
      show e.2 < (acc.2.bufs ++ [acc.2.read imgRef]).length
      simp only [List.length_append, List.length_cons, List.length_nil]
      omega
    · rw [List.mem_singleton] at h1
      subst h1
      refine ⟨hne, ?_⟩
      rw [hinner.2]
      show acc.2.bufs.length < (acc.2.bufs ++ [acc.2.read imgRef]).length
      simp only [List.length_append, List.length_cons, List.length_nil]
      omega
  · rw [List.map_append, List.pairwise_append]
    refine ⟨hpair, by simp, ?_⟩
    intro a ha b hb
    simp only [List.map_cons, List.map_nil, List.mem_singleton] at hb
    subst hb
    obtain ⟨e, he, rfl⟩ := List.mem_map.mp ha
    exact (hmem e he).2

theorem display_tesseract_results_frame (draw_rect : Img → TessBox → Img)
    (modes : List TessMode) (h : Heap) (imgRef : Nat)
    (hlt : imgRef < h.bufs.length) :
    TessInv imgRef h (display_tesseract_results draw_rect modes h imgRef) :=
  foldl_invariant (TessInv imgRef h) (tess_mode_step draw_rect imgRef) modes ([], h)
    ⟨rfl, hlt, by simp, by simp⟩
    (fun x a hx => tess_mode_step_inv draw_rect imgRef h x a hx)

/-! ### C6: every overlay draws only on a fresh copy -/

/-- C6: each overlay renderer leaves the caller's input buffer unchanged and
annotates a fresh copy: each of `get_google_words`, `get_google_paragraphs`
and `get_google_blocks` returns a reference distinct from the input whose
drawing never touches the input buffer, and `display_tesseract_results`
returns, per engine configuration, pairwise-distinct annotated references all
distinct from the input, again leaving the input buffer unchanged. -/
theorem overlay_draws_on_copy (draw : Img → List Vertex → Img)
    (draw_rect : Img → TessBox → Img) (page : Page) (modes : List TessMode)
    (h : Heap) (imgRef : Nat) (hlt : imgRef < h.bufs.length) :
    ((get_google_words draw page h imgRef).2.bufs[imgRef]? = h.bufs[imgRef]? ∧
      (get_google_words draw page h imgRef).1.2 ≠ imgRef) ∧
    ((get_google_paragraphs draw page h imgRef).2.bufs[imgRef]? = h.bufs[imgRef]? ∧
      (get_google_paragraphs draw page h imgRef).1.2 ≠ imgRef) ∧
    ((get_google_blocks draw page h imgRef).2.bufs[imgRef]? = h.bufs[imgRef]? ∧
      (get_google_blocks draw page h imgRef).1.2 ≠ imgRef) ∧
    ((display_tesseract_results draw_rect modes h imgRef).2.bufs[imgRef]? =
        h.bufs[imgRef]? ∧
      (∀ e ∈ (display_tesseract_results draw_rect modes h imgRef).1, e.2 ≠ imgRef)) ∧
    (((display_tesseract_results draw_rect modes h imgRef).1.map fun e => e.2).Pairwise
      fun a b => a ≠ b) := by
  obtain ⟨t1, t2, t3, t4⟩ := display_tesseract_results_frame draw_rect modes h imgRef hlt
  exact ⟨get_google_words_frame draw page h imgRef hlt,
    get_google_paragraphs_frame draw page h imgRef hlt,
    get_google_blocks_frame draw page h imgRef hlt,
    ⟨t1, fun e he => (t3 e he).1⟩,
    t4.imp (fun hab => Nat.ne_of_lt hab)⟩

theorem overlay_draws_on_copy_witness :
    (get_google_words drawPolyDemo pageDemo heapDemo 0).2.bufs[0]? =
      heapDemo.bufs[0]? ∧
    (get_google_words drawPolyDemo pageDemo heapDemo 0).1.2 ≠ 0 ∧
    (display_tesseract_results drawRectDemo tessModesDemo heapDemo 0).2.bufs[0]? =
      heapDemo.bufs[0]? := by
  obtain ⟨⟨w1, w2⟩, -, -, ⟨t1, -⟩, -⟩ :=
    overlay_draws_on_copy drawPolyDemo drawRectDemo pageDemo tessModesDemo heapDemo 0
      (by decide)
  exact ⟨w1, w2, t1⟩

/-! ### C10: one text per node, in traversal order -/

theorem words_para_loop_texts (draw : Img → List Vertex → Img) (copyRef : Nat)
    (acc : List String × Heap) (p : Paragraph) :
    (words_para_loop draw copyRef acc p).1 = acc.1 ++ p.words.map get_word_text :=
  (foldl_texts_append (words_step draw copyRef) (fun w => [get_word_text w])
    (fun _ _ => rfl) p.words acc).trans
    (congrArg (fun l => acc.1 ++ l) (flatMap_singleton_map get_word_text p.words))

theorem words_block_loop_texts (draw : Img → List Vertex → Img) (copyRef : Nat)
    (acc : List String × Heap) (b : Block) :
    (words_block_loop draw copyRef acc b).1 =
      acc.1 ++ (b.paragraphs.flatMap fun p => p.words.map get_word_text) :=
  foldl_texts_append (words_para_loop draw copyRef)
    (fun p => p.words.map get_word_text)
    (fun acc p => words_para_loop_texts draw copyRef acc p) b.paragraphs acc

theorem get_google_words_texts (draw : Img → List Vertex → Img) (page : Page)
    (h : Heap) (imgRef : Nat) :
    (get_google_words draw page h imgRef).1.1 =
      ((page.blocks.flatMap fun b => b.paragraphs).flatMap fun p => p.words).map
        get_word_text := by
  refine (foldl_texts_append (words_block_loop draw h.bufs.length)
    (fun b => b.paragraphs.flatMap fun p => p.words.map get_word_text)
    (fun acc b => words_block_loop_texts draw h.bufs.length acc b)
    page.blocks ([], ⟨h.bufs ++ [h.read imgRef]⟩)).trans ?_
  simp [List.map_flatMap, List.flatMap_assoc]

theorem paras_block_loop_texts (draw : Img → List Vertex → Img) (copyRef : Nat)
    (acc : List String × Heap) (b : Block) :
    (paras_block_loop draw copyRef acc b).1 =
      acc.1 ++ b.paragraphs.map get_paragraph_text :=
  (foldl_texts_append (paras_step draw copyRef) (fun p => [get_paragraph_text p])
    (fun _ _ => rfl) b.paragraphs acc).trans
    (congrArg (fun l => acc.1 ++ l) (flatMap_singleton_map get_paragraph_text b.paragraphs))

theorem get_google_paragraphs_texts (draw : Img → List Vertex → Img) (page : Page)
    (h : Heap) (imgRef : Nat) :
    (get_google_paragraphs draw page h imgRef).1.1 =
      (page.blocks.flatMap fun b => b.paragraphs).map get_paragraph_text := by
  refine (foldl_texts_append (paras_block_loop draw h.bufs.length)
    (fun b => b.paragraphs.map get_paragraph_text)
    (fun acc b => paras_block_loop_texts draw h.bufs.length acc b)
    page.blocks ([], ⟨h.bufs ++ [h.read imgRef]⟩)).trans ?_
  simp [List.map_flatMap]

theorem get_google_blocks_texts (draw : Img → List Vertex → Img) (page : Page)
    (h : Heap) (imgRef : Nat) :
    (get_google_blocks draw page h imgRef).1.1 = page.blocks.map get_block_text := by
  refine (foldl_texts_append (blocks_step draw h.bufs.length)
    (fun b => [get_block_text b])
    (fun _ _ => rfl) page.blocks ([], ⟨h.bufs ++ [h.read imgRef]⟩)).trans ?_
  rw [List.nil_append, flatMap_singleton_map]

/-- C10: the text lists returned by the three cloud overlay renderers contain
exactly one entry per node at the corresponding hierarchy level, in document
traversal order (blocks in page order, paragraphs in block order, words in
paragraph order); in particular each list's length equals the number of nodes
at that level. -/
theorem google_texts_one_per_node (draw : Img → List Vertex → Img) (page : Page)
    (h : Heap) (imgRef : Nat) :
    (get_google_blocks draw page h imgRef).1.1 = page.blocks.map get_block_text ∧
    (get_google_paragraphs draw page h imgRef).1.1 =
      (page.blocks.flatMap fun b => b.paragraphs).map get_paragraph_text ∧
    (get_google_words draw page h imgRef).1.1 =
      ((page.blocks.flatMap fun b => b.paragraphs).flatMap fun p => p.words).map
        get_word_text ∧
    (get_google_blocks draw page h imgRef).1.1.length = page.blocks.length ∧
    (get_google_paragraphs draw page h imgRef).1.1.length =
      (page.blocks.flatMap fun b => b.paragraphs).length ∧
    (get_google_words draw page h imgRef).1.1.length =
      ((page.blocks.flatMap fun b => b.paragraphs).flatMap fun p => p.words).length := by
  refine ⟨get_google_blocks_texts draw page h imgRef,
    get_google_paragraphs_texts draw page h imgRef,
    get_google_words_texts draw page h imgRef, ?_, ?_, ?_⟩
  · rw [get_google_blocks_texts draw page h imgRef, List.length_map]
  · rw [get_google_paragraphs_texts draw page h imgRef, List.length_map]
  · rw [get_google_words_texts draw page h imgRef, List.length_map]

end JupyterDelicacies
